import Mathlib

/-!
Verification of the file-operations layer of the `fileManagerMcpServer`
repository against its natural-language specification.

The development shallowly embeds `FileManager` (`src/models/fileModel.py`)
and the slice of the MCP controller (`src/controllers/file_controller.py`)
that the claims refer to.

Modelling conventions, fixed once here:

* A path is modelled after resolution (`Path(p).resolve()`): an absolute,
  normalized path given by its list of components.  `resolve` itself is an
  OS-level canonicalization and is not modelled; for an absolute normalized
  input it is the identity, so error messages built from the raw input and
  success payloads built from the resolved path coincide in the model.
* The filesystem is a finite tree of directories and regular files; file
  content is the raw byte sequence on disk.  POSIX semantics are assumed:
  `os.linesep` is a single newline, so text-mode writes store the string
  unchanged, while text-mode reads apply universal-newline translation
  (CR LF and lone CR become LF), exactly as `Path.write_text` /
  `Path.read_text` behave.
* OS-level failures (permission denied, I/O errors, ...) that are not
  decided by the tree structure are injected through an `Oracle`; `noFail`
  is the oracle under which every primitive that is structurally possible
  succeeds.
* Python exceptions are values of `PyExn`; a function returning
  `Except PyExn A` models code that may raise.  A `try/except` block is a
  `match` on that value whose handled branches mirror the source's
  `except` clauses; anything not matched by a clause is re-raised.
-/

set_option autoImplicit false

/-- A resolved absolute path, as its list of components (`[]` is the
filesystem root `/`). -/
abbrev PathC := List String

/-- The string rendering of a resolved path, used in result payloads and
error messages (`str(targetPath)` / `f-string` interpolation in the
source). -/
def pathStr (p : PathC) : String :=
  "/" ++ String.intercalate "/" p

/-- The final component of a path (`Path.name`; the empty string for the
root, as in Python). -/
def pathName (p : PathC) : String :=
  (p.getLast?).getD ""

/-- A filesystem node: a regular file carrying its on-disk bytes, or a
directory carrying its named children. -/
inductive Node where
  | file (bytes : List Nat)
  | dir (entries : List (String × Node))

/-- Membership of a name in a directory listing (`entry.name` lookup used
by `pathlib` traversal). -/
def lookupEntry (cs : List (String × Node)) (s : String) : Option Node :=
  match cs with
  | [] => none
  | (k, v) :: rest => if k == s then some v else lookupEntry rest s

/-- Walk a resolved path down the tree (the filesystem query underlying
`Path.exists` / `Path.is_dir` / `Path.is_file`). -/
def Node.lookup : Node → PathC → Option Node
  | n, [] => some n
  | .file _, _ :: _ => none
  | .dir cs, s :: rest =>
    match lookupEntry cs s with
    | some child => child.lookup rest
    | none => none

/-- Replace (or add) the entry named `s` in a directory listing. -/
def setEntry (cs : List (String × Node)) (s : String) (n : Node) : List (String × Node) :=
  match cs with
  | [] => [(s, n)]
  | (k, v) :: rest => if k == s then (k, n) :: rest else (k, v) :: setEntry rest s n

/-- Remove the entry named `s` from a directory listing. -/
def dropEntry (cs : List (String × Node)) (s : String) : List (String × Node) :=
  cs.filter (fun e => !(e.1 == s))

/-! ## Text encodings

`_safeRead` (fileModel.py lines 11-18) tries the encodings
`['utf-8', 'latin-1', 'cp1252']` in order.  The decoders below model
Python's strict codecs at the byte level. -/

/-- Is `b` a UTF-8 continuation byte (`0x80 ≤ b < 0xC0`)? -/
def isCont (b : Nat) : Bool := 0x80 ≤ b && b < 0xC0

/-- Valid range of the second byte of a three-byte UTF-8 sequence with
lead byte `b`: the restricted ranges after `0xE0` and `0xED` exclude
overlong encodings and surrogates. -/
def cont3ok (b b1 : Nat) : Bool :=
  if b = 0xE0 then decide (0xA0 ≤ b1) && decide (b1 < 0xC0)
  else if b = 0xED then decide (0x80 ≤ b1) && decide (b1 < 0xA0)
  else isCont b1

/-- Valid range of the second byte of a four-byte UTF-8 sequence with
lead byte `b`: the restricted ranges after `0xF0` and `0xF4` exclude
overlong encodings and code points above `U+10FFFF`. -/
def cont4ok (b b1 : Nat) : Bool :=
  if b = 0xF0 then decide (0x90 ≤ b1) && decide (b1 < 0xC0)
  else if b = 0xF4 then decide (0x80 ≤ b1) && decide (b1 < 0x90)
  else isCont b1

mutual
/-- Strict UTF-8 decoding of a byte sequence, as Python's `utf-8` codec:
rejects stray continuation bytes, overlong encodings, surrogate code
points and code points above `U+10FFFF`.  The lead byte selects the
sequence length; `utf8DecTwo`/`utf8DecThree`/`utf8DecFour` consume the
continuation bytes. -/
def utf8Decode : List Nat → Option (List Char)
  | [] => some []
  | b :: bs =>
    if b < 0x80 then
      (utf8Decode bs).map (fun cs => Char.ofNat b :: cs)
    else if b < 0xC2 then none
    else if b < 0xE0 then utf8DecTwo b bs
    else if b < 0xF0 then utf8DecThree b bs
    else if b < 0xF5 then utf8DecFour b bs
    else none

/-- Continuation of a two-byte UTF-8 sequence with lead byte `b`. -/
def utf8DecTwo (b : Nat) : List Nat → Option (List Char)
  | b1 :: bs1 =>
    if isCont b1 then
      (utf8Decode bs1).map (fun cs => Char.ofNat ((b - 0xC0) * 0x40 + (b1 - 0x80)) :: cs)
    else none
  | [] => none

/-- Continuation of a three-byte UTF-8 sequence with lead byte `b`. -/
def utf8DecThree (b : Nat) : List Nat → Option (List Char)
  | b1 :: b2 :: bs2 =>
    if cont3ok b b1 && isCont b2 then
      (utf8Decode bs2).map
        (fun cs => Char.ofNat ((b - 0xE0) * 0x1000 + (b1 - 0x80) * 0x40 + (b2 - 0x80)) :: cs)
    else none
  | [_] => none
  | [] => none

/-- Continuation of a four-byte UTF-8 sequence with lead byte `b`. -/
def utf8DecFour (b : Nat) : List Nat → Option (List Char)
  | b1 :: b2 :: b3 :: bs3 =>
    if cont4ok b b1 && isCont b2 && isCont b3 then
      (utf8Decode bs3).map
        (fun cs => Char.ofNat ((b - 0xF0) * 0x40000 + (b1 - 0x80) * 0x1000
          + (b2 - 0x80) * 0x40 + (b3 - 0x80)) :: cs)
    else none
  | [_, _] => none
  | [_] => none
  | [] => none
end

/-- UTF-8 encoding of one character (used by `write_text(..., encoding='utf-8')`
and by `str.encode('utf-8')` when the source computes byte counts). -/
def utf8EncodeChar (c : Char) : List Nat :=
  let n := c.toNat
  if n < 0x80 then [n]
  else if n < 0x800 then [0xC0 + n / 0x40, 0x80 + n % 0x40]
  else if n < 0x10000 then
    [0xE0 + n / 0x1000, 0x80 + n / 0x40 % 0x40, 0x80 + n % 0x40]
  else
    [0xF0 + n / 0x40000, 0x80 + n / 0x1000 % 0x40, 0x80 + n / 0x40 % 0x40, 0x80 + n % 0x40]

/-- UTF-8 encoding of a string. -/
def utf8Encode (s : List Char) : List Nat :=
  s.flatMap utf8EncodeChar

/-- Latin-1 (ISO-8859-1) decoding of one byte: every byte value below 256
decodes, to the code point of the same number. -/
def latin1DecodeByte (b : Nat) : Option Char :=
  if b < 256 then some (Char.ofNat b) else none

/-- Windows-1252 decoding of one byte: as Latin-1 except that the range
`0x80`-`0x9F` maps through the cp1252 table, in which `0x81`, `0x8D`,
`0x8F`, `0x90` and `0x9D` are undefined (Python raises on them). -/
def cp1252DecodeByte (b : Nat) : Option Char :=
  if b == 0x80 then some (Char.ofNat 0x20AC)
  else if b == 0x82 then some (Char.ofNat 0x201A)
  else if b == 0x83 then some (Char.ofNat 0x0192)
  else if b == 0x84 then some (Char.ofNat 0x201E)
  else if b == 0x85 then some (Char.ofNat 0x2026)
  else if b == 0x86 then some (Char.ofNat 0x2020)
  else if b == 0x87 then some (Char.ofNat 0x2021)
  else if b == 0x88 then some (Char.ofNat 0x02C6)
  else if b == 0x89 then some (Char.ofNat 0x2030)
  else if b == 0x8A then some (Char.ofNat 0x0160)
  else if b == 0x8B then some (Char.ofNat 0x2039)
  else if b == 0x8C then some (Char.ofNat 0x0152)
  else if b == 0x8E then some (Char.ofNat 0x017D)
  else if b == 0x91 then some (Char.ofNat 0x2018)
  else if b == 0x92 then some (Char.ofNat 0x2019)
  else if b == 0x93 then some (Char.ofNat 0x201C)
  else if b == 0x94 then some (Char.ofNat 0x201D)
  else if b == 0x95 then some (Char.ofNat 0x2022)
  else if b == 0x96 then some (Char.ofNat 0x2013)
  else if b == 0x97 then some (Char.ofNat 0x2014)
  else if b == 0x98 then some (Char.ofNat 0x02DC)
  else if b == 0x99 then some (Char.ofNat 0x2122)
  else if b == 0x9A then some (Char.ofNat 0x0161)
  else if b == 0x9B then some (Char.ofNat 0x203A)
  else if b == 0x9C then some (Char.ofNat 0x0153)
  else if b == 0x9E then some (Char.ofNat 0x017E)
  else if b == 0x9F then some (Char.ofNat 0x0178)
  else if b == 0x81 || b == 0x8D || b == 0x8F || b == 0x90 || b == 0x9D then none
  else if b < 256 then some (Char.ofNat b) else none

/-- The encodings attempted by `_safeRead`, in the source's order
(fileModel.py line 12). -/
inductive Enc where
  | utf8
  | latin1
  | cp1252
deriving DecidableEq

/-- The fallback chain `['utf-8', 'latin-1', 'cp1252']`. -/
def encodings : List Enc := [.utf8, .latin1, .cp1252]

/-- Decode a byte sequence byte-for-byte under a single-byte codec,
failing as soon as one byte is rejected. -/
def decodeAll (f : Nat → Option Char) : List Nat → Option (List Char)
  | [] => some []
  | b :: bs =>
    match f b with
    | some c => (decodeAll f bs).map (fun cs => c :: cs)
    | none => none

/-- Decode a byte sequence under one encoding of the chain. -/
def decodeWith : Enc → List Nat → Option (List Char)
  | .utf8, bs => utf8Decode bs
  | .latin1, bs => decodeAll latin1DecodeByte bs
  | .cp1252, bs => decodeAll cp1252DecodeByte bs

/-- Universal-newline translation applied by text-mode reads
(`newline=None`): CR LF and lone CR become LF. -/
def normNewlines : List Char → List Char
  | [] => []
  | '\r' :: '\n' :: rest => '\n' :: normNewlines rest
  | '\r' :: rest => '\n' :: normNewlines rest
  | c :: rest => c :: normNewlines rest

/-! ## Exceptions, oracle and the result envelope -/

/-- Python exception values that the embedded code can raise.  `osError`
covers `OSError` and all its subclasses (`FileNotFoundError`,
`IsADirectoryError`, `PermissionError`, ...); `str(e)` is the carried
message. -/
inductive PyExn where
  | osError (msg : String)
  | unicodeDecodeError (msg : String)
  | typeError (msg : String)

/-- Model of `str(e)`, as used by the `except ... as e` handlers. -/
def PyExn.msg : PyExn → String
  | .osError m => m
  | .unicodeDecodeError m => m
  | .typeError m => m

/-- A JSON-like value, modelling the payload entries of the result
dictionaries (and the data of `writeJsonFile`/`readJsonFile`). -/
inductive JVal where
  | s (v : String)
  | n (v : Nat)
  | b (v : Bool)
  | jnull
  | arr (v : List JVal)
  | obj (v : List (String × JVal))

/-- Injection of OS-level failures that are not decided by the tree
structure (permission denied, I/O error, disk full, ...): for each
primitive and path, `some m` means the underlying OS call raises an
`OSError` whose `str` is `m`.  `mtime`, `ctime` and `dirStatSize` model
the environment-dependent parts of `stat` results that the tree does not
carry.  The `json` standard library is likewise treated as part of the
environment: `jsonDump` models `json.dumps(..., indent=2,
ensure_ascii=False)` (total, since a `JVal` is always serializable) and
`jsonParse` models `json.loads`, whose only failure is the
`json.JSONDecodeError` carried as the `Except` error.  No claim depends
on the JSON text itself. -/
structure Oracle where
  readFail : PathC → Option String
  writeFail : PathC → Option String
  appendFail : PathC → Option String
  unlinkFail : PathC → Option String
  copyFail : PathC → Option String
  moveFail : PathC → Option String
  statFail : PathC → Option String
  mkdirFail : PathC → Option String
  rmdirFail : PathC → Option String
  rmtreeFail : PathC → Option String
  mtime : PathC → String
  ctime : PathC → String
  dirStatSize : PathC → Nat
  jsonDump : JVal → String
  jsonParse : String → Except String JVal

/-- The oracle under which every structurally possible OS call succeeds. -/
def noFail : Oracle where
  readFail := fun _ => none
  writeFail := fun _ => none
  appendFail := fun _ => none
  unlinkFail := fun _ => none
  copyFail := fun _ => none
  moveFail := fun _ => none
  statFail := fun _ => none
  mkdirFail := fun _ => none
  rmdirFail := fun _ => none
  rmtreeFail := fun _ => none
  mtime := fun _ => ""
  ctime := fun _ => ""
  dirStatSize := fun _ => 0
  jsonDump := fun _ => ""
  jsonParse := fun _ => .error "Expecting value: line 1 column 1 (char 0)"

/-- The uniform result envelope: `{"success": True, ...fields}` or
`{"success": False, "error": msg}`.  Field order is the insertion order of
the source's dictionaries. -/
inductive Result where
  | ok (fields : List (String × JVal))
  | err (msg : String)

/-! ## `_safeRead` (fileModel.py lines 11-18) -/

/-- The name Python prints for an encoding of the chain. -/
def encName : Enc → String
  | .utf8 => "utf-8"
  | .latin1 => "latin-1"
  | .cp1252 => "cp1252"

/-- One `read_text(encoding=e)` attempt, given the bytes already read from
disk: decode strictly, then apply universal-newline translation.  A decode
failure is the raised `UnicodeDecodeError`. -/
def readTextBytes (e : Enc) (bs : List Nat) : Except PyExn String :=
  match decodeWith e bs with
  | some cs => .ok (String.mk (normNewlines cs))
  | none => .error (.unicodeDecodeError (encName e ++ " codec cannot decode bytes"))

/-- The loop of `_safeRead` over a list of encodings: each attempt's
`UnicodeDecodeError` is caught and the next encoding tried; any other
exception propagates.  When the chain is exhausted the source executes
`raise UnicodeDecodeError(f"...")`, which — since `UnicodeDecodeError`
requires five constructor arguments — actually raises a `TypeError` at
that line. -/
def safeReadBytesGo (bs : List Nat) : List Enc → Except PyExn String
  | [] => .error (.typeError "UnicodeDecodeError takes exactly 5 arguments, 1 given")
  | e :: rest =>
    match readTextBytes e bs with
    | .ok s => .ok s
    | .error (.unicodeDecodeError _) => safeReadBytesGo bs rest
    | .error ex => .error ex

/-- Model of `_safeRead`, given the file's bytes (the disk read succeeded). -/
def safeReadBytes (bs : List Nat) : Except PyExn String :=
  safeReadBytesGo bs encodings

/-- Model of `_safeRead` on a path: each `read_text` attempt opens the file, so an
OS-level read failure or a wrong node kind raises an `OSError` out of the
first attempt, uncaught by the `except UnicodeDecodeError` clause. -/
def safeRead (o : Oracle) (fs : Node) (p : PathC) : Except PyExn String :=
  match o.readFail p with
  | some m => .error (.osError m)
  | none =>
    match fs.lookup p with
    | some (.file bs) => safeReadBytes bs
    | some (.dir _) => .error (.osError ("Is a directory: " ++ pathStr p))
    | none => .error (.osError ("No such file or directory: " ++ pathStr p))

/-- The decoded text a byte sequence yields under the fallback chain, if
any encoding of the chain accepts it: the first successful decode, with
newline translation applied (the declarative counterpart of
`safeReadBytes`, used to state the claims). -/
def chainText (bs : List Nat) : Option String :=
  match encodings.find? (fun e => (decodeWith e bs).isSome) with
  | some e => (decodeWith e bs).map (fun cs => String.mk (normNewlines cs))
  | none => none

/-! ## String helpers: lowercasing, substring search, glob matching -/

/-- Model of `str.lower`, modelled on the Basic Latin and Latin-1 blocks (ASCII
`A`-`Z` and `À`-`Þ` except `×` map down by 32); the full Unicode case
table is not reproduced, and no claim depends on case pairs outside these
blocks. -/
def lowerChar (c : Char) : Char :=
  let n := c.toNat
  if 0x41 ≤ n && n ≤ 0x5A then Char.ofNat (n + 32)
  else if 0xC0 ≤ n && n ≤ 0xDE && n != 0xD7 then Char.ofNat (n + 32)
  else c

/-- Model of `str.lower` over a whole string. -/
def lowerStr (s : List Char) : List Char :=
  s.map lowerChar

/-- Does `hay` start with `needle`? -/
def startsWithList : List Char → List Char → Bool
  | [], _ => true
  | _ :: _, [] => false
  | n :: ns, h :: hs => n == h && startsWithList ns hs

/-- Python's `needle in hay` on strings: contiguous substring occurrence
(the empty needle always occurs). -/
def hasSub (needle : List Char) : List Char → Bool
  | [] => needle.isEmpty
  | c :: t => startsWithList needle (c :: t) || hasSub needle t

/-- Fuel-indexed core of the shell-style glob matcher (`*` matches any
run, `?` any one character); the fuel only serves termination and
`globMatch` always supplies enough. -/
def globMatchF : Nat → List Char → List Char → Bool
  | 0, _, _ => false
  | _ + 1, [], [] => true
  | f + 1, '*' :: ps, [] => globMatchF f ps []
  | _ + 1, _ :: _, [] => false
  | _ + 1, [], _ :: _ => false
  | f + 1, '*' :: ps, c :: cs => globMatchF f ps (c :: cs) || globMatchF f ('*' :: ps) cs
  | f + 1, '?' :: ps, _ :: cs => globMatchF f ps cs
  | f + 1, p :: ps, c :: cs => p == c && globMatchF f ps cs

/-- Model of `fnmatch`-style matching of a file name against a glob pattern, as
used by `rglob`.  Character classes (`[...]`) are not modelled; the
claims only exercise `*`/`?`/literal patterns. -/
def globMatch (pat s : List Char) : Bool :=
  globMatchF (pat.length + s.length + 1) pat s

/-! ## Filesystem primitives

`Except String A` models an OS call whose only failure mode is an
`OSError` carrying the given message; message texts approximate the
`str` of the corresponding Python exception.  Each primitive first
consults the oracle for an injected failure and then applies the
structural semantics. -/

/-- Model of `mkdir(parents=True, exist_ok=True)`: create the missing directories
along `p`; an existing directory is fine, an existing file anywhere on
the path raises. -/
def mkdirpNode : Node → PathC → Except String Node
  | .dir cs, [] => .ok (.dir cs)
  | .file _, [] => .error "File exists"
  | .file _, _ :: _ => .error "Not a directory"
  | .dir cs, s :: rest =>
    match lookupEntry cs s with
    | some child => (mkdirpNode child rest).map (fun c => .dir (setEntry cs s c))
    | none => (mkdirpNode (.dir []) rest).map (fun c => .dir (setEntry cs s c))

/-- Text-mode `write_text` at the byte level (content already UTF-8
encoded; on POSIX the write-side newline translation is the identity):
replace or create the file at `p`.  Raises if `p` is an existing
directory or its parent is missing or not a directory. -/
def setFileNode : Node → PathC → List Nat → Except String Node
  | .dir _, [], _ => .error ("Is a directory: " ++ pathStr [])
  | .file _, _, _ => .error "Not a directory"
  | .dir cs, [s], bs =>
    match lookupEntry cs s with
    | some (.dir _) => .error ("Is a directory: " ++ s)
    | _ => .ok (.dir (setEntry cs s (.file bs)))
  | .dir cs, s :: r :: rest, bs =>
    match lookupEntry cs s with
    | some child => (setFileNode child (r :: rest) bs).map (fun c => .dir (setEntry cs s c))
    | none => .error ("No such file or directory: " ++ s)

/-- Model of `open(p, 'a')` followed by a write: append to the file at `p`,
creating it when absent. -/
def appendFileNode : Node → PathC → List Nat → Except String Node
  | .dir _, [], _ => .error ("Is a directory: " ++ pathStr [])
  | .file _, _, _ => .error "Not a directory"
  | .dir cs, [s], bs =>
    match lookupEntry cs s with
    | some (.dir _) => .error ("Is a directory: " ++ s)
    | some (.file old) => .ok (.dir (setEntry cs s (.file (old ++ bs))))
    | none => .ok (.dir (setEntry cs s (.file bs)))
  | .dir cs, s :: r :: rest, bs =>
    match lookupEntry cs s with
    | some child => (appendFileNode child (r :: rest) bs).map (fun c => .dir (setEntry cs s c))
    | none => .error ("No such file or directory: " ++ s)

/-- Remove the node at `p` (whatever its kind; the callers have already
checked the kind).  The filesystem root cannot be removed. -/
def removeNode : Node → PathC → Except String Node
  | _, [] => .error "Device or resource busy: /"
  | .file _, _ :: _ => .error "Not a directory"
  | .dir cs, [s] =>
    if (lookupEntry cs s).isSome then .ok (.dir (dropEntry cs s))
    else .error ("No such file or directory: " ++ s)
  | .dir cs, s :: r :: rest =>
    match lookupEntry cs s with
    | some child => (removeNode child (r :: rest)).map (fun c => .dir (setEntry cs s c))
    | none => .error ("No such file or directory: " ++ s)

/-- Place the node `n` at `p` (the relocation step of `shutil.move`):
the parent must exist, and an existing directory at `p` is not
overwritten (an existing file is, as with POSIX `rename`). -/
def setNodeAt : Node → PathC → Node → Except String Node
  | .dir _, [], _ => .error ("Is a directory: " ++ pathStr [])
  | .file _, _, _ => .error "Not a directory"
  | .dir cs, [s], n =>
    match lookupEntry cs s with
    | some (.dir _) => .error ("Directory not empty: " ++ s)
    | _ => .ok (.dir (setEntry cs s n))
  | .dir cs, s :: r :: rest, n =>
    match lookupEntry cs s with
    | some child => (setNodeAt child (r :: rest) n).map (fun c => .dir (setEntry cs s c))
    | none => .error ("No such file or directory: " ++ s)

/-- Model of `Path.rmdir`: remove the directory at `p`; a non-empty directory
raises the `ENOTEMPTY` `OSError`. -/
def rmdirPrim (o : Oracle) (fs : Node) (p : PathC) : Except String Node :=
  match o.rmdirFail p with
  | some m => .error m
  | none =>
    match fs.lookup p with
    | some (.dir []) => removeNode fs p
    | some (.dir (_ :: _)) => .error ("[Errno 39] Directory not empty: " ++ pathStr p)
    | some (.file _) => .error ("Not a directory: " ++ pathStr p)
    | none => .error ("No such file or directory: " ++ pathStr p)

/-- Model of `shutil.rmtree`: remove the whole subtree at `p`.  A failure part-way
through (injected by the oracle) is modelled as leaving the tree
unchanged; no claim inspects the partially-deleted state. -/
def rmtreePrim (o : Oracle) (fs : Node) (p : PathC) : Except String Node :=
  match o.rmtreeFail p with
  | some m => .error m
  | none => removeNode fs p

/-! ## Directory traversal -/

/-- Sort a directory listing by entry name, as `sorted(targetPath.iterdir())`
does (all entries share the parent, so path order is name order). -/
def insertByName (x : String × Node) : List (String × Node) → List (String × Node)
  | [] => [x]
  | y :: ys => if x.1 < y.1 then x :: y :: ys else y :: insertByName x ys

/-- Insertion sort of directory entries by name. -/
def sortByName (cs : List (String × Node)) : List (String × Node) :=
  cs.foldr insertByName []

mutual
/-- Model of `Path.rglob(pattern)` for a single-component pattern: every strict
descendant (file or directory) whose name matches, grouped per directory
with directories visited pre-order, paired with its node. -/
def rglobNode (pat : List Char) (base : PathC) : Node → List (PathC × Node)
  | .file _ => []
  | .dir cs =>
    (cs.filterMap fun e =>
      if globMatch pat e.1.data then some (base ++ [e.1], e.2) else none)
      ++ rglobKids pat base cs

/-- Recurse `rglobNode` over the children of a directory. -/
def rglobKids (pat : List Char) (base : PathC) : List (String × Node) → List (PathC × Node)
  | [] => []
  | (nm, nd) :: rest => rglobNode pat (base ++ [nm]) nd ++ rglobKids pat base rest
end

/-- Model of `Path.suffix`: the extension of the final path component —
`name[i:]` for the last dot index `i` when `0 < i < len(name) - 1`,
otherwise the empty string. -/
def lastDotAux : List Char → Nat → Option Nat → Option Nat
  | [], _, acc => acc
  | c :: t, i, acc => lastDotAux t (i + 1) (if c == '.' then some i else acc)

/-- Model of `Path.suffix` on a file name. -/
def suffixOf (name : String) : String :=
  match lastDotAux name.data 0 none with
  | some i =>
    if 0 < i && i + 1 < name.data.length then String.mk (name.data.drop i) else ""
  | none => ""

/-- Is this node a directory (`Path.is_dir`)? -/
def Node.isDir : Node → Bool
  | .dir _ => true
  | .file _ => false

/-- Is this node a regular file (`Path.is_file`)? -/
def Node.isFile : Node → Bool
  | .file _ => true
  | .dir _ => false

/-- Run a primitive after consulting the oracle for an injected
`OSError`. -/
def withOracle (fail : Option String) (act : Except String Node) : Except String Node :=
  match fail with
  | some m => .error m
  | none => act

/-! ## The `FileManager` operations (fileModel.py)

Each method of the Python class becomes one definition.  Operations that
never mutate the filesystem return `Except PyExn Result`; mutating ones
also return the new tree.  An `.error` at the outer level is an exception
escaping the method — claim C2 states that this never happens. -/

namespace FileManager

/-- Model of `readFile` (lines 20-29): existence check, then `_safeRead` inside
`try/except Exception`.  The reported size is `len(content.encode('utf-8'))`
of the decoded content. -/
def readFile (o : Oracle) (fs : Node) (filePath : PathC) : Except PyExn Result :=
  match fs.lookup filePath with
  | none => .ok (.err ("File does not exist: " ++ pathStr filePath))
  | some _ =>
    match safeRead o fs filePath with
    | .ok content =>
      .ok (.ok [("content", .s content), ("size", .n (utf8Encode content.data).length)])
    | .error e => .ok (.err e.msg)

/-- Model of `writeFile` (lines 31-43): refuse an existing target when
`overwrite=False`; otherwise create parent directories and write the
UTF-8 encoding of the content, all inside `try/except Exception`. -/
def writeFile (o : Oracle) (fs : Node) (filePath : PathC) (content : String)
    (overwrite : Bool) : Except PyExn (Result × Node) :=
  if (fs.lookup filePath).isSome && !overwrite then
    .ok (.err ("File exists and overwrite=False: " ++ pathStr filePath), fs)
  else
    match withOracle (o.mkdirFail filePath.dropLast) (mkdirpNode fs filePath.dropLast) with
    | .error m => .ok (.err m, fs)
    | .ok fs1 =>
      match withOracle (o.writeFail filePath) (setFileNode fs1 filePath (utf8Encode content.data)) with
      | .error m => .ok (.err m, fs1)
      | .ok fs2 =>
        .ok (.ok [("bytesWritten", .n (utf8Encode content.data).length),
                  ("path", .s (pathStr filePath))], fs2)

/-- Model of `appendFile` (lines 45-55). -/
def appendFile (o : Oracle) (fs : Node) (filePath : PathC) (content : String) :
    Except PyExn (Result × Node) :=
  match withOracle (o.mkdirFail filePath.dropLast) (mkdirpNode fs filePath.dropLast) with
  | .error m => .ok (.err m, fs)
  | .ok fs1 =>
    match withOracle (o.appendFail filePath) (appendFileNode fs1 filePath (utf8Encode content.data)) with
    | .error m => .ok (.err m, fs1)
    | .ok fs2 =>
      .ok (.ok [("bytesAppended", .n (utf8Encode content.data).length),
                ("path", .s (pathStr filePath))], fs2)

/-- Model of `deleteFile` (lines 57-70): missing and directory targets are refused
before the `try` block; the unlink itself is guarded by
`try/except Exception`. -/
def deleteFile (o : Oracle) (fs : Node) (filePath : PathC) : Except PyExn (Result × Node) :=
  match fs.lookup filePath with
  | none => .ok (.err ("File does not exist: " ++ pathStr filePath), fs)
  | some (.dir _) => .ok (.err ("Use deleteFolder for directories: " ++ pathStr filePath), fs)
  | some (.file _) =>
    match withOracle (o.unlinkFail filePath) (removeNode fs filePath) with
    | .error m => .ok (.err m, fs)
    | .ok fs1 => .ok (.ok [("deleted", .s (pathStr filePath))], fs1)

/-- Model of `copyFile` (lines 72-84): source-existence check, then parent
creation and `shutil.copy2` inside `try/except Exception`.  `copy2` into
an existing directory copies to `dest/source.name`; a directory source
raises `IsADirectoryError`. -/
def copyFile (o : Oracle) (fs : Node) (sourcePath destPath : PathC) :
    Except PyExn (Result × Node) :=
  match fs.lookup sourcePath with
  | none => .ok (.err ("Source file does not exist: " ++ pathStr sourcePath), fs)
  | some srcNode =>
    match withOracle (o.mkdirFail destPath.dropLast) (mkdirpNode fs destPath.dropLast) with
    | .error m => .ok (.err m, fs)
    | .ok fs1 =>
      let realDst : PathC :=
        match fs1.lookup destPath with
        | some (.dir _) => destPath ++ [pathName sourcePath]
        | _ => destPath
      match srcNode with
      | .dir _ => .ok (.err ("Is a directory: " ++ pathStr sourcePath), fs1)
      | .file bs =>
        match withOracle (o.copyFail sourcePath) (setFileNode fs1 realDst bs) with
        | .error m => .ok (.err m, fs1)
        | .ok fs2 =>
          .ok (.ok [("copiedFrom", .s (pathStr sourcePath)),
                    ("copiedTo", .s (pathStr destPath))], fs2)

/-- Model of `moveFile` (lines 86-98): source-existence check, then parent
creation and `shutil.move` inside `try/except Exception`.  `move` into an
existing directory targets `dest/source.name`; an existing directory at
the final destination is not overwritten. -/
def moveFile (o : Oracle) (fs : Node) (sourcePath destPath : PathC) :
    Except PyExn (Result × Node) :=
  match fs.lookup sourcePath with
  | none => .ok (.err ("Source file does not exist: " ++ pathStr sourcePath), fs)
  | some srcNode =>
    match withOracle (o.mkdirFail destPath.dropLast) (mkdirpNode fs destPath.dropLast) with
    | .error m => .ok (.err m, fs)
    | .ok fs1 =>
      let realDst : PathC :=
        match fs1.lookup destPath with
        | some (.dir _) => destPath ++ [pathName sourcePath]
        | _ => destPath
      match withOracle (o.moveFail sourcePath)
          ((removeNode fs1 sourcePath).bind fun fs2 => setNodeAt fs2 realDst srcNode) with
      | .error m => .ok (.err m, fs1)
      | .ok fs2 =>
        .ok (.ok [("movedFrom", .s (pathStr sourcePath)),
                  ("movedTo", .s (pathStr destPath))], fs2)

/-- Model of `getFileInfo` (lines 100-119): existence check, then a `stat` call
inside `try/except Exception`; payload fields in the source's order.  The
timestamps and the `st_size` of a directory are environment data supplied
by the oracle. -/
def getFileInfo (o : Oracle) (fs : Node) (filePath : PathC) : Except PyExn Result :=
  match fs.lookup filePath with
  | none => .ok (.err ("File does not exist: " ++ pathStr filePath))
  | some node =>
    match o.statFail filePath with
    | some m => .ok (.err m)
    | none =>
      .ok (.ok [("path", .s (pathStr filePath)),
                ("size", .n (match node with
                  | .file bs => bs.length
                  | .dir _ => o.dirStatSize filePath)),
                ("modified", .s (o.mtime filePath)),
                ("created", .s (o.ctime filePath)),
                ("isDir", .b node.isDir),
                ("isFile", .b node.isFile),
                ("extension", .s (suffixOf (pathName filePath)))])

/-- Model of `writeJsonFile` (lines 121-126): serialize (total on `JVal` data, so
the `except` around `json.dumps` is never taken) and delegate to
`writeFile`. -/
def writeJsonFile (o : Oracle) (fs : Node) (filePath : PathC) (data : JVal)
    (overwrite : Bool) : Except PyExn (Result × Node) :=
  writeFile o fs filePath (o.jsonDump data) overwrite

/-- Model of `readJsonFile` (lines 128-137): delegate to `readFile`, pass an error
result through, then `json.loads(result["content"])` with only
`json.JSONDecodeError` caught. -/
def readJsonFile (o : Oracle) (fs : Node) (filePath : PathC) : Except PyExn Result :=
  match readFile o fs filePath with
  | .error e => .error e
  | .ok (.err m) => .ok (.err m)
  | .ok (.ok fields) =>
    match List.lookup "content" fields with
    | some (.s content) =>
      match o.jsonParse content with
      | .ok data => .ok (.ok [("data", data)])
      | .error m => .ok (.err ("Invalid JSON: " ++ m))
    | some _ => .error (.typeError "content is not a string")
    | none => .error (.typeError "KeyError: content")

/-- One entry of the `listDirectory` payload (lines 148-153): the keys
are exactly `name`, `type`, `size`, `path` — the source produces no
`modified` key.  `item.stat()` is consulted only for files. -/
def itemInfo (o : Oracle) (p : PathC) (nm : String) (nd : Node) : Except String JVal :=
  match nd with
  | .file bs =>
    match o.statFail (p ++ [nm]) with
    | some m => .error m
    | none =>
      .ok (.obj [("name", .s nm), ("type", .s "file"), ("size", .n bs.length),
                 ("path", .s (pathStr (p ++ [nm])))])
  | .dir _ =>
    .ok (.obj [("name", .s nm), ("type", .s "dir"), ("size", .n 0),
               ("path", .s (pathStr (p ++ [nm])))])

/-- The loop of `listDirectory` over the sorted entries; a failing
`stat` aborts the loop with the raised error. -/
def itemsOf (o : Oracle) (p : PathC) : List (String × Node) → Except String (List JVal)
  | [] => .ok []
  | (nm, nd) :: rest => (itemInfo o p nm nd).bind fun it => (itemsOf o p rest).map (it :: ·)

/-- Model of `listDirectory` (lines 139-158): existence check, then the sorted
`iterdir` loop inside `try/except Exception` (`iterdir` on a file raises
`NotADirectoryError`, which the handler converts to an error result). -/
def listDirectory (o : Oracle) (fs : Node) (path : PathC) : Except PyExn Result :=
  match fs.lookup path with
  | none => .ok (.err ("Path does not exist: " ++ pathStr path))
  | some (.file _) => .ok (.err ("Not a directory: " ++ pathStr path))
  | some (.dir cs) =>
    match itemsOf o path (sortByName cs) with
    | .error m => .ok (.err m)
    | .ok items => .ok (.ok [("items", .arr items), ("count", .n items.length)])

/-- Model of `createFolder` (lines 160-167): `mkdir(parents=True, exist_ok=True)`
inside `try/except Exception`. -/
def createFolder (o : Oracle) (fs : Node) (folderPath : PathC) : Except PyExn (Result × Node) :=
  match withOracle (o.mkdirFail folderPath) (mkdirpNode fs folderPath) with
  | .error m => .ok (.err m, fs)
  | .ok fs1 => .ok (.ok [("created", .s (pathStr folderPath))], fs1)

/-- Model of `deleteFolder` (lines 169-188): existence and directory checks, then
`rmtree`/`rmdir` inside `try/except OSError`; the handler reports
`Directory not empty` whenever the call was non-recursive and the target
still exists, and the underlying message otherwise. -/
def deleteFolder (o : Oracle) (fs : Node) (folderPath : PathC) (recursive : Bool) :
    Except PyExn (Result × Node) :=
  match fs.lookup folderPath with
  | none => .ok (.err ("Folder does not exist: " ++ pathStr folderPath), fs)
  | some (.file _) => .ok (.err ("Not a directory: " ++ pathStr folderPath), fs)
  | some (.dir _) =>
    if recursive then
      match rmtreePrim o fs folderPath with
      | .ok fs1 => .ok (.ok [("deleted", .s (pathStr folderPath)), ("recursive", .b true)], fs1)
      | .error m => .ok (.err m, fs)
    else
      match rmdirPrim o fs folderPath with
      | .ok fs1 => .ok (.ok [("deleted", .s (pathStr folderPath)), ("recursive", .b false)], fs1)
      | .error m =>
        if (fs.lookup folderPath).isSome then
          .ok (.err ("Directory not empty: " ++ pathStr folderPath), fs)
        else .ok (.err m, fs)

/-- One entry of the `findFiles` payload (lines 199-205). -/
def findEntryInfo (o : Oracle) (q : PathC) (nd : Node) : Except String JVal :=
  match nd with
  | .file bs =>
    match o.statFail q with
    | some m => .error m
    | none =>
      .ok (.obj [("path", .s (pathStr q)), ("name", .s (pathName q)),
                 ("type", .s "file"), ("size", .n bs.length)])
  | .dir _ =>
    .ok (.obj [("path", .s (pathStr q)), ("name", .s (pathName q)),
               ("type", .s "dir"), ("size", .n 0)])

/-- The loop of `findFiles` over the `rglob` matches. -/
def findResults (o : Oracle) : List (PathC × Node) → Except String (List JVal)
  | [] => .ok []
  | (q, nd) :: rest => (findEntryInfo o q nd).bind fun it => (findResults o rest).map (it :: ·)

/-- Model of `findFiles` (lines 190-209): existence check, then `rglob` and the
result loop inside `try/except Exception`. -/
def findFiles (o : Oracle) (fs : Node) (pattern : String) (path : PathC) :
    Except PyExn Result :=
  match fs.lookup path with
  | none => .ok (.err ("Path does not exist: " ++ pathStr path))
  | some (.file _) => .ok (.err ("Not a directory: " ++ pathStr path))
  | some (.dir cs) =>
    match findResults o (rglobNode pattern.data path (.dir cs)) with
    | .error m => .ok (.err m)
    | .ok results => .ok (.ok [("matches", .arr results), ("count", .n results.length)])

/-- The per-file loop of `searchInFiles` (lines 220-230): skip
non-files; `_safeRead` each file under a bare `except: continue`, so any
read or decode failure silently drops the file; keep the files whose
lowercased content contains the lowercased term. -/
def searchLoop (o : Oracle) (term : String) : List (PathC × Node) → List JVal
  | [] => []
  | (_, .dir _) :: rest => searchLoop o term rest
  | (q, .file bs) :: rest =>
    match (match o.readFail q with
           | some m => Except.error (PyExn.osError m)
           | none => safeReadBytes bs) with
    | .ok content =>
      if hasSub (lowerStr term.data) (lowerStr content.data) then
        .obj [("file", .s (pathStr q)), ("name", .s (pathName q))] :: searchLoop o term rest
      else searchLoop o term rest
    | .error _ => searchLoop o term rest

/-- Model of `searchInFiles` (lines 211-234): existence check, then the `rglob`
loop inside `try/except Exception`. -/
def searchInFiles (o : Oracle) (fs : Node) (searchTerm filePattern : String) (path : PathC) :
    Except PyExn Result :=
  match fs.lookup path with
  | none => .ok (.err ("Path does not exist: " ++ pathStr path))
  | some (.file _) => .ok (.err ("Not a directory: " ++ pathStr path))
  | some (.dir cs) =>
    let found := searchLoop o searchTerm (rglobNode filePattern.data path (.dir cs))
    .ok (.ok [("files", .arr found), ("count", .n found.length)])

end FileManager

/-- One invocation of a `FileManager` operation, with its arguments. -/
inductive Call where
  | readFile (p : PathC)
  | writeFile (p : PathC) (content : String) (overwrite : Bool)
  | appendFile (p : PathC) (content : String)
  | deleteFile (p : PathC)
  | copyFile (src dst : PathC)
  | moveFile (src dst : PathC)
  | getFileInfo (p : PathC)
  | writeJsonFile (p : PathC) (data : JVal) (overwrite : Bool)
  | readJsonFile (p : PathC)
  | listDirectory (p : PathC)
  | createFolder (p : PathC)
  | deleteFolder (p : PathC) (recursive : Bool)
  | findFiles (pattern : String) (p : PathC)
  | searchInFiles (term pattern : String) (p : PathC)

/-- Dispatch one call to the corresponding `FileManager` method; the
adapter boundary of the spec.  A read-only operation leaves the tree
unchanged. -/
def runCall (o : Oracle) (fs : Node) : Call → Except PyExn (Result × Node)
  | .readFile p => (FileManager.readFile o fs p).map (fun r => (r, fs))
  | .writeFile p c ow => FileManager.writeFile o fs p c ow
  | .appendFile p c => FileManager.appendFile o fs p c
  | .deleteFile p => FileManager.deleteFile o fs p
  | .copyFile src dst => FileManager.copyFile o fs src dst
  | .moveFile src dst => FileManager.moveFile o fs src dst
  | .getFileInfo p => (FileManager.getFileInfo o fs p).map (fun r => (r, fs))
  | .writeJsonFile p d ow => FileManager.writeJsonFile o fs p d ow
  | .readJsonFile p => (FileManager.readJsonFile o fs p).map (fun r => (r, fs))
  | .listDirectory p => (FileManager.listDirectory o fs p).map (fun r => (r, fs))
  | .createFolder p => FileManager.createFolder o fs p
  | .deleteFolder p r => FileManager.deleteFolder o fs p r
  | .findFiles pat p => (FileManager.findFiles o fs pat p).map (fun r => (r, fs))
  | .searchInFiles t pat p => (FileManager.searchInFiles o fs t pat p).map (fun r => (r, fs))

/-! ## The controller's `listDirectory` tool (file_controller.py lines 166-186)

The controller formats each item with
`f"{item['type']:<5} {item['size']:>10} {item['modified'].split('T')[0]:<20} {item['name']}"`;
a missing dictionary key raises `KeyError`.  Column padding is elided
from the rendering — the claims depend only on which keys are looked
up. -/

/-- Model of `item[key]`: a dictionary access, raising `KeyError` when absent. -/
def dictGet (d : List (String × JVal)) (k : String) : Except String JVal :=
  match List.lookup k d with
  | some v => .ok v
  | none => .error ("KeyError: " ++ k)

/-- Plain rendering of a payload value inside an f-string. -/
def jvalText : JVal → String
  | .s v => v
  | .n v => toString v
  | .b v => if v then "True" else "False"
  | .jnull => "None"
  | .arr _ => "[...]"
  | .obj _ => "..."

/-- One formatted row of the controller's listing: the f-string evaluates
`item['type']`, `item['size']`, `item['modified']` and `item['name']` in
order, so the first missing key decides the raised error. -/
def fmtRow (it : JVal) : Except String String :=
  match it with
  | .obj d =>
    (dictGet d "type").bind fun tv =>
    (dictGet d "size").bind fun sv =>
    (dictGet d "modified").bind fun mv =>
    (dictGet d "name").bind fun nv =>
      .ok (jvalText tv ++ " " ++ jvalText sv ++ " "
        ++ String.mk ((jvalText mv).data.takeWhile (fun c => c != 'T')) ++ " " ++ jvalText nv)
  | _ => .error "TypeError: item is not a dict"

/-- The row loop of the controller's formatter. -/
def fmtRows : List JVal → Except String (List String)
  | [] => .ok []
  | it :: rest => (fmtRow it).bind fun row => (fmtRows rest).map (row :: ·)

/-- The `listDirectory` tool of the controller: delegate to the model,
return the error message on failure, report an empty directory, and
otherwise format a header plus one row per item.  An `.error` is an
exception escaping the tool function (the controller has no
`try/except`). -/
def controllerListDirectory (o : Oracle) (fs : Node) (p : PathC) : Except String String :=
  match FileManager.listDirectory o fs p with
  | .error e => .error e.msg
  | .ok (.err m) => .ok m
  | .ok (.ok fields) =>
    match List.lookup "items" fields with
    | some (.arr []) => .ok ("Directory is empty: " ++ pathStr p)
    | some (.arr items) =>
      (fmtRows items).map fun rows =>
        String.intercalate "\n" ("Type Size Modified Name" :: "---- ---- -------- ----" :: rows)
    | _ => .error "KeyError: items"

/-- Whether one `rglob` match contributes an entry to the
`searchInFiles` result: it must be a regular file, its disk read must
succeed, some encoding of the chain must decode it, and the lowercased
decoded content must contain the lowercased term. -/
def searchHit (o : Oracle) (term : String) (e : PathC × Node) : Option JVal :=
  match e.2 with
  | .dir _ => none
  | .file bs =>
    match o.readFail e.1, chainText bs with
    | none, some s =>
      if hasSub (lowerStr term.data) (lowerStr s.data) then
        some (.obj [("file", .s (pathStr e.1)), ("name", .s (pathName e.1))])
      else none
    | _, _ => none

/-- An oracle that makes both directory-removal primitives fail, for the
C10 witness. -/
def rmFailOracle : Oracle :=
  { noFail with
    rmdirFail := fun _ => some "Permission denied"
    rmtreeFail := fun _ => some "rmtree failed" }

/-! ## Lemmas about the encoding layer -/

/-- The scalar-value range of a `Char`: below the surrogate block, or
between it and `U+10FFFF`. -/
theorem charBounds (c : Char) :
    c.toNat < 0xD800 ∨ (0xDFFF < c.toNat ∧ c.toNat < 0x110000) := by
  have h := c.valid
  unfold UInt32.isValidChar Nat.isValidChar at h
  simp only [Char.toNat]
  exact h

/-- Decoder step for a one-byte sequence. -/
theorem utf8Decode_cons1 (b : Nat) (bs : List Nat) (h : b < 0x80) :
    utf8Decode (b :: bs) = (utf8Decode bs).map (fun cs => Char.ofNat b :: cs) := by
  rw [utf8Decode.eq_def]
  dsimp only
  rw [if_pos h]

/-- Decoder step for a two-byte sequence. -/
theorem utf8Decode_cons2 (b b1 : Nat) (bs : List Nat) (h2 : 0xC2 ≤ b) (h3 : b < 0xE0)
    (hc : isCont b1 = true) :
    utf8Decode (b :: b1 :: bs)
      = (utf8Decode bs).map (fun cs => Char.ofNat ((b - 0xC0) * 0x40 + (b1 - 0x80)) :: cs) := by
  rw [utf8Decode.eq_def]
  dsimp only
  rw [if_neg (by omega), if_neg (by omega), if_pos h3]
  simp [utf8DecTwo, hc]

/-- Decoder step for a three-byte sequence. -/
theorem utf8Decode_cons3 (b b1 b2 : Nat) (bs : List Nat) (ha : 0xE0 ≤ b) (hb : b < 0xF0)
    (hc : cont3ok b b1 = true) (hc2 : isCont b2 = true) :
    utf8Decode (b :: b1 :: b2 :: bs)
      = (utf8Decode bs).map
          (fun cs => Char.ofNat ((b - 0xE0) * 0x1000 + (b1 - 0x80) * 0x40 + (b2 - 0x80)) :: cs) := by
  rw [utf8Decode.eq_def]
  dsimp only
  rw [if_neg (by omega), if_neg (by omega), if_neg (by omega), if_pos hb]
  simp [utf8DecThree, hc, hc2]

/-- Decoder step for a four-byte sequence. -/
theorem utf8Decode_cons4 (b b1 b2 b3 : Nat) (bs : List Nat) (ha : 0xF0 ≤ b) (hb : b < 0xF5)
    (hc : cont4ok b b1 = true) (hc2 : isCont b2 = true) (hc3 : isCont b3 = true) :
    utf8Decode (b :: b1 :: b2 :: b3 :: bs)
      = (utf8Decode bs).map
          (fun cs => Char.ofNat ((b - 0xF0) * 0x40000 + (b1 - 0x80) * 0x1000
            + (b2 - 0x80) * 0x40 + (b3 - 0x80)) :: cs) := by
  rw [utf8Decode.eq_def]
  dsimp only
  rw [if_neg (by omega), if_neg (by omega), if_neg (by omega), if_neg (by omega), if_pos hb]
  simp [utf8DecFour, hc, hc2, hc3]

/-- Decoding consumes the encoding of one character and continues. -/
theorem utf8Decode_encChar (c : Char) (bs : List Nat) :
    utf8Decode (utf8EncodeChar c ++ bs) = (utf8Decode bs).map (fun cs => c :: cs) := by
  have hv := charBounds c
  have hof := Char.ofNat_toNat c
  rcases Nat.lt_or_ge c.toNat 0x80 with h1 | h1
  · rw [show utf8EncodeChar c = [c.toNat] by simp [utf8EncodeChar, h1]]
    rw [List.cons_append, List.nil_append, utf8Decode_cons1 _ _ h1, hof]
  · rcases Nat.lt_or_ge c.toNat 0x800 with h2 | h2
    · rw [show utf8EncodeChar c = [0xC0 + c.toNat / 0x40, 0x80 + c.toNat % 0x40] by
        simp only [utf8EncodeChar]; rw [if_neg (by omega), if_pos (by omega)]]
      rw [List.cons_append, List.cons_append, List.nil_append,
        utf8Decode_cons2 _ _ _ (by omega) (by omega) (by simp [isCont]; omega)]
      rw [show (0xC0 + c.toNat / 0x40 - 0xC0) * 0x40 + (0x80 + c.toNat % 0x40 - 0x80)
        = c.toNat by omega, hof]
    · rcases Nat.lt_or_ge c.toNat 0x10000 with h3 | h3
      · rw [show utf8EncodeChar c
          = [0xE0 + c.toNat / 0x1000, 0x80 + c.toNat / 0x40 % 0x40, 0x80 + c.toNat % 0x40] by
          simp only [utf8EncodeChar]
          rw [if_neg (by omega), if_neg (by omega), if_pos (by omega)]]
        rw [List.cons_append, List.cons_append, List.cons_append, List.nil_append,
          utf8Decode_cons3 _ _ _ _ (by omega) (by omega) ?hc3 (by simp [isCont]; omega)]
        · rw [show (0xE0 + c.toNat / 0x1000 - 0xE0) * 0x1000
            + (0x80 + c.toNat / 0x40 % 0x40 - 0x80) * 0x40 + (0x80 + c.toNat % 0x40 - 0x80)
            = c.toNat by omega, hof]
        case hc3 =>
          unfold cont3ok
          rcases Nat.lt_or_ge c.toNat 0x1000 with hr | hr
          · rw [if_pos (by omega)]
            simp; omega
          · rcases Nat.lt_or_ge c.toNat 0xD000 with hr2 | hr2
            · rw [if_neg (by omega), if_neg (by omega)]
              simp [isCont]; omega
            · rcases Nat.lt_or_ge c.toNat 0xE000 with hr3 | hr3
              · rw [if_neg (by omega), if_pos (by omega)]
                simp; omega
              · rw [if_neg (by omega), if_neg (by omega)]
                simp [isCont]; omega
      · rw [show utf8EncodeChar c
          = [0xF0 + c.toNat / 0x40000, 0x80 + c.toNat / 0x1000 % 0x40,
             0x80 + c.toNat / 0x40 % 0x40, 0x80 + c.toNat % 0x40] by
          simp only [utf8EncodeChar]
          rw [if_neg (by omega), if_neg (by omega), if_neg (by omega)]]
        rw [List.cons_append, List.cons_append, List.cons_append, List.cons_append,
          List.nil_append,
          utf8Decode_cons4 _ _ _ _ _ (by omega) (by omega) ?hc4
            (by simp [isCont]; omega) (by simp [isCont]; omega)]
        · rw [show (0xF0 + c.toNat / 0x40000 - 0xF0) * 0x40000
            + (0x80 + c.toNat / 0x1000 % 0x40 - 0x80) * 0x1000
            + (0x80 + c.toNat / 0x40 % 0x40 - 0x80) * 0x40 + (0x80 + c.toNat % 0x40 - 0x80)
            = c.toNat by omega, hof]
        case hc4 =>
          unfold cont4ok
          rcases Nat.lt_or_ge c.toNat 0x40000 with hr | hr
          · rw [if_pos (by omega)]
            simp; omega
          · rcases Nat.lt_or_ge c.toNat 0x100000 with hr2 | hr2
            · rw [if_neg (by omega), if_neg (by omega)]
              simp [isCont]; omega
            · rw [if_neg (by omega), if_pos (by omega)]
              simp; omega

/-- The UTF-8 round trip: decoding the encoding of any string gives the
string back. -/
theorem utf8Decode_utf8Encode (s : List Char) : utf8Decode (utf8Encode s) = some s := by
  induction s with
  | nil => rfl
  | cons c cs ih =>
    rw [show utf8Encode (c :: cs) = utf8EncodeChar c ++ utf8Encode cs from rfl,
      utf8Decode_encChar, ih]
    rfl

/-- Universal-newline translation is the identity on text containing no
carriage return. -/
theorem normNewlines_no_cr (l : List Char) (h : ∀ c ∈ l, c ≠ '\r') : normNewlines l = l := by
  induction l with
  | nil => rfl
  | cons c rest ih =>
    have hc : c ≠ '\r' := h c (by simp)
    have h2 : ∀ x ∈ rest, x ≠ '\r' := fun x hx => h x (by simp [hx])
    rw [normNewlines.eq_def]
    split
    · rename_i heq; exact absurd heq (List.cons_ne_nil _ _)
    · rename_i heq; injection heq with e1 e2; exact absurd e1 hc
    · rename_i heq; injection heq with e1 e2; exact absurd e1 hc
    · rename_i heq
      injection heq with e1 e2
      subst e1
      subst e2
      rw [ih h2]

/-- Latin-1 decodes every sequence of genuine bytes (all values below
256). -/
theorem latin1_total (bs : List Nat) (h : ∀ b ∈ bs, b < 256) :
    ∃ cs, decodeAll latin1DecodeByte bs = some cs := by
  induction bs with
  | nil => exact ⟨[], rfl⟩
  | cons b rest ih =>
    obtain ⟨cs, hcs⟩ := ih fun x hx => h x (by simp [hx])
    refine ⟨Char.ofNat b :: cs, ?_⟩
    have hb : b < 256 := h b (by simp)
    simp [decodeAll, latin1DecodeByte, hb, hcs]

/-- The result of `_safeRead` on given bytes is determined by the first encoding of the
chain that decodes them (`chainText`); when none does, the malformed
`raise UnicodeDecodeError(...)` at the end of the loop raises a
`TypeError`. -/
theorem safeReadBytes_spec (bs : List Nat) :
    safeReadBytes bs
      = match chainText bs with
        | some s => .ok s
        | none => .error (.typeError "UnicodeDecodeError takes exactly 5 arguments, 1 given") := by
  unfold safeReadBytes chainText encodings
  cases hu : utf8Decode bs with
  | some cs => simp [safeReadBytesGo, readTextBytes, decodeWith, hu]
  | none =>
    cases hl : decodeAll latin1DecodeByte bs with
    | some cs => simp [safeReadBytesGo, readTextBytes, decodeWith, hu, hl]
    | none =>
      cases hc : decodeAll cp1252DecodeByte bs with
      | some cs => simp [safeReadBytesGo, readTextBytes, decodeWith, hu, hl, hc]
      | none => simp [safeReadBytesGo, readTextBytes, decodeWith, hu, hl, hc]

/-- The result of `_safeRead` on the UTF-8 encoding of a string: the first attempt of
the chain succeeds and returns the newline-translated string. -/
theorem safeReadBytes_utf8 (s : List Char) :
    safeReadBytes (utf8Encode s) = .ok (String.mk (normNewlines s)) := by
  unfold safeReadBytes encodings
  simp [safeReadBytesGo, readTextBytes, decodeWith, utf8Decode_utf8Encode s]

/-! ## Lemmas about the filesystem tree -/

/-- Looking up the name just set finds the new node. -/
theorem lookupEntry_setEntry (cs : List (String × Node)) (s : String) (n : Node) :
    lookupEntry (setEntry cs s n) s = some n := by
  induction cs with
  | nil => simp [setEntry, lookupEntry]
  | cons e rest ih =>
    by_cases h : e.1 == s
    · simp [setEntry, lookupEntry, h]
    · simp [setEntry, lookupEntry, h, ih]

/-- Looking up the name just dropped finds nothing. -/
theorem lookupEntry_dropEntry (cs : List (String × Node)) (s : String) :
    lookupEntry (dropEntry cs s) s = none := by
  induction cs with
  | nil => rfl
  | cons e rest ih =>
    by_cases h : e.1 == s
    · simpa [dropEntry, h] using ih
    · simpa [dropEntry, lookupEntry, h] using ih

/-- A successful `write_text` stores exactly the written bytes at the
target path. -/
theorem setFileNode_lookup : ∀ (n : Node) (p : PathC) (bs : List Nat) (n' : Node),
    setFileNode n p bs = .ok n' → n'.lookup p = some (.file bs)
  | n, [], bs, n' => by cases n <;> simp [setFileNode]
  | .file _, s :: rest, bs, n' => by simp [setFileNode]
  | .dir cs, [s], bs, n' => by
    cases hle : lookupEntry cs s with
    | none =>
      simp only [setFileNode, hle]
      intro h
      injection h with h
      subst h
      simp [Node.lookup, lookupEntry_setEntry]
    | some child =>
      cases child with
      | dir _ => simp [setFileNode, hle]
      | file _ =>
        simp only [setFileNode, hle]
        intro h
        injection h with h
        subst h
        simp [Node.lookup, lookupEntry_setEntry]
  | .dir cs, s :: r :: rest, bs, n' => by
    cases hle : lookupEntry cs s with
    | none => simp [setFileNode, hle]
    | some child =>
      simp only [setFileNode, hle]
      cases hrec : setFileNode child (r :: rest) bs with
      | error m => simp [Except.map]
      | ok c =>
        simp only [Except.map]
        intro h
        injection h with h
        subst h
        have := setFileNode_lookup child (r :: rest) bs c hrec
        simp [Node.lookup, lookupEntry_setEntry, this]

/-- A successful removal erases the target path. -/
theorem removeNode_lookup : ∀ (n : Node) (p : PathC) (n' : Node),
    removeNode n p = .ok n' → n'.lookup p = none
  | n, [], n' => by simp [removeNode]
  | .file _, s :: rest, n' => by simp [removeNode]
  | .dir cs, [s], n' => by
    simp only [removeNode]
    cases hle : (lookupEntry cs s).isSome with
    | false => simp [hle]
    | true =>
      simp only [hle, if_true]
      intro h
      injection h with h
      subst h
      simp [Node.lookup, lookupEntry_dropEntry]
  | .dir cs, s :: r :: rest, n' => by
    cases hle : lookupEntry cs s with
    | none => simp [removeNode, hle]
    | some child =>
      simp only [removeNode, hle]
      cases hrec : removeNode child (r :: rest) with
      | error m => simp [Except.map]
      | ok c =>
        simp only [Except.map]
        intro h
        injection h with h
        subst h
        have := removeNode_lookup child (r :: rest) c hrec
        simp [Node.lookup, lookupEntry_setEntry, this]

/-- Removal succeeds on every existing non-root path. -/
theorem removeNode_ok : ∀ (n : Node) (p : PathC) (x : Node),
    n.lookup p = some x → p ≠ [] → ∃ n', removeNode n p = .ok n'
  | n, [], x => by simp
  | .file _, s :: rest, x => by simp [Node.lookup]
  | .dir cs, [s], x => by
    intro h _
    simp only [Node.lookup] at h
    cases hle : lookupEntry cs s with
    | none => rw [hle] at h; exact absurd h (by simp)
    | some child => exact ⟨.dir (dropEntry cs s), by simp [removeNode, hle]⟩
  | .dir cs, s :: r :: rest, x => by
    intro h _
    simp only [Node.lookup] at h
    cases hle : lookupEntry cs s with
    | none => rw [hle] at h; exact absurd h (by simp)
    | some child =>
      rw [hle] at h
      obtain ⟨c, hc⟩ := removeNode_ok child (r :: rest) x h (by simp)
      exact ⟨.dir (setEntry cs s c), by simp [removeNode, hle, hc, Except.map]⟩

/-- The whole chain decodes every sequence of genuine bytes, because its
second encoding, Latin-1, is total on them. -/
theorem chainText_total (bs : List Nat) (hb : ∀ b ∈ bs, b < 256) :
    ∃ s, chainText bs = some s := by
  unfold chainText encodings
  cases hu : utf8Decode bs with
  | some cs =>
    refine ⟨String.mk (normNewlines cs), ?_⟩
    simp [decodeWith, hu]
  | none =>
    obtain ⟨cs, hcs⟩ := latin1_total bs hb
    refine ⟨String.mk (normNewlines cs), ?_⟩
    simp [List.find?, decodeWith, hu, hcs]

/-! ## No operation lets an exception escape (towards claim C2) -/

/-- A success result of `readFile` always carries the content as its
first field (needed because `readJsonFile` accesses
`result["content"]`). -/
theorem readFile_ok_shape (o : Oracle) (fs : Node) (p : PathC) (flds : List (String × JVal))
    (h : FileManager.readFile o fs p = .ok (.ok flds)) :
    ∃ s rest, flds = ("content", .s s) :: rest := by
  unfold FileManager.readFile at h
  cases hl : fs.lookup p with
  | none => rw [hl] at h; simp at h
  | some n =>
    rw [hl] at h
    cases hs : safeRead o fs p with
    | error e => rw [hs] at h; simp at h
    | ok content =>
      rw [hs] at h
      simp only [Except.ok.injEq, Result.ok.injEq] at h
      exact ⟨content, _, h.symm⟩

/-- The operation `readFile` returns a result value for every input and oracle. -/
theorem readFile_no_raise (o : Oracle) (fs : Node) (p : PathC) :
    ∃ r, FileManager.readFile o fs p = .ok r := by
  unfold FileManager.readFile
  repeat' split
  all_goals exact ⟨_, rfl⟩

/-- The operation `writeFile` returns a result value for every input and oracle. -/
theorem writeFile_no_raise (o : Oracle) (fs : Node) (p : PathC) (c : String) (ow : Bool) :
    ∃ r, FileManager.writeFile o fs p c ow = .ok r := by
  unfold FileManager.writeFile
  repeat' split
  all_goals exact ⟨_, rfl⟩

/-- The operation `appendFile` returns a result value for every input and oracle. -/
theorem appendFile_no_raise (o : Oracle) (fs : Node) (p : PathC) (c : String) :
    ∃ r, FileManager.appendFile o fs p c = .ok r := by
  unfold FileManager.appendFile
  repeat' split
  all_goals exact ⟨_, rfl⟩

/-- The operation `deleteFile` returns a result value for every input and oracle. -/
theorem deleteFile_no_raise (o : Oracle) (fs : Node) (p : PathC) :
    ∃ r, FileManager.deleteFile o fs p = .ok r := by
  unfold FileManager.deleteFile
  repeat' split
  all_goals exact ⟨_, rfl⟩

/-- The operation `copyFile` returns a result value for every input and oracle. -/
theorem copyFile_no_raise (o : Oracle) (fs : Node) (src dst : PathC) :
    ∃ r, FileManager.copyFile o fs src dst = .ok r := by
  unfold FileManager.copyFile
  dsimp only
  repeat' split
  all_goals exact ⟨_, rfl⟩

/-- The operation `moveFile` returns a result value for every input and oracle. -/
theorem moveFile_no_raise (o : Oracle) (fs : Node) (src dst : PathC) :
    ∃ r, FileManager.moveFile o fs src dst = .ok r := by
  unfold FileManager.moveFile
  dsimp only
  repeat' split
  all_goals exact ⟨_, rfl⟩

/-- The operation `getFileInfo` returns a result value for every input and oracle. -/
theorem getFileInfo_no_raise (o : Oracle) (fs : Node) (p : PathC) :
    ∃ r, FileManager.getFileInfo o fs p = .ok r := by
  unfold FileManager.getFileInfo
  repeat' split
  all_goals exact ⟨_, rfl⟩

/-- The operation `writeJsonFile` returns a result value for every input and oracle. -/
theorem writeJsonFile_no_raise (o : Oracle) (fs : Node) (p : PathC) (d : JVal) (ow : Bool) :
    ∃ r, FileManager.writeJsonFile o fs p d ow = .ok r := by
  unfold FileManager.writeJsonFile
  exact writeFile_no_raise o fs p (o.jsonDump d) ow

/-- The operation `readJsonFile` returns a result value for every input and oracle: the
only shape of success result `readFile` produces starts with the
`content` field, so the `KeyError` access is unreachable, and the only
exception `json.loads` raises is the caught `JSONDecodeError`. -/
theorem readJsonFile_no_raise (o : Oracle) (fs : Node) (p : PathC) :
    ∃ r, FileManager.readJsonFile o fs p = .ok r := by
  unfold FileManager.readJsonFile
  obtain ⟨r, hr⟩ := readFile_no_raise o fs p
  rw [hr]
  cases r with
  | err m => exact ⟨_, rfl⟩
  | ok flds =>
    obtain ⟨s, rest, hshape⟩ := readFile_ok_shape o fs p flds hr
    subst hshape
    dsimp only
    rw [show List.lookup "content" (("content", JVal.s s) :: rest) = some (JVal.s s) by
      simp [List.lookup]]
    dsimp only
    cases o.jsonParse s with
    | error m => exact ⟨_, rfl⟩
    | ok v => exact ⟨_, rfl⟩

/-- The operation `listDirectory` returns a result value for every input and oracle. -/
theorem listDirectory_no_raise (o : Oracle) (fs : Node) (p : PathC) :
    ∃ r, FileManager.listDirectory o fs p = .ok r := by
  unfold FileManager.listDirectory
  repeat' split
  all_goals exact ⟨_, rfl⟩

/-- The operation `createFolder` returns a result value for every input and oracle. -/
theorem createFolder_no_raise (o : Oracle) (fs : Node) (p : PathC) :
    ∃ r, FileManager.createFolder o fs p = .ok r := by
  unfold FileManager.createFolder
  repeat' split
  all_goals exact ⟨_, rfl⟩

/-- The operation `deleteFolder` returns a result value for every input and oracle:
`rmtree`/`rmdir` raise only `OSError`, which the handler catches. -/
theorem deleteFolder_no_raise (o : Oracle) (fs : Node) (p : PathC) (r : Bool) :
    ∃ res, FileManager.deleteFolder o fs p r = .ok res := by
  unfold FileManager.deleteFolder
  repeat' split
  all_goals exact ⟨_, rfl⟩

/-- The operation `findFiles` returns a result value for every input and oracle. -/
theorem findFiles_no_raise (o : Oracle) (fs : Node) (pat : String) (p : PathC) :
    ∃ r, FileManager.findFiles o fs pat p = .ok r := by
  unfold FileManager.findFiles
  repeat' split
  all_goals exact ⟨_, rfl⟩

/-- The operation `searchInFiles` returns a result value for every input and oracle:
per-file failures are swallowed by the bare `except`. -/
theorem searchInFiles_no_raise (o : Oracle) (fs : Node) (t pat : String) (p : PathC) :
    ∃ r, FileManager.searchInFiles o fs t pat p = .ok r := by
  unfold FileManager.searchInFiles
  repeat' split
  all_goals exact ⟨_, rfl⟩

/-! ## The search loop, declaratively (towards claim C7) -/

/-- The operational per-file loop of `searchInFiles` computes exactly the
declarative filter: silently dropping a file coincides with its
`searchHit` being `none`. -/
theorem searchLoop_eq_filterMap (o : Oracle) (term : String) (l : List (PathC × Node)) :
    FileManager.searchLoop o term l = l.filterMap (searchHit o term) := by
  induction l with
  | nil => rfl
  | cons e rest ih =>
    obtain ⟨q, nd⟩ := e
    cases nd with
    | dir cs => simp [FileManager.searchLoop, searchHit, ih]
    | file bs =>
      cases hrf : o.readFail q with
      | some m => simp [FileManager.searchLoop, searchHit, hrf, ih]
      | none =>
        have hs := safeReadBytes_spec bs
        cases hct : chainText bs with
        | none =>
          rw [hct] at hs
          simp [FileManager.searchLoop, searchHit, hrf, hct, hs, ih]
        | some s =>
          rw [hct] at hs
          by_cases hh : hasSub (lowerStr term.data) (lowerStr s.data)
          · simp [FileManager.searchLoop, searchHit, hrf, hct, hs, hh, ih]
          · simp [FileManager.searchLoop, searchHit, hrf, hct, hs, hh, ih]

/-! ## The claims -/

/-- C1: the claim says every `listDirectory` entry carries name, type,
size, last-modified timestamp and full path.  The model layer's entries
(fileModel.py lines 148-153) carry only `name`, `type`, `size` and
`path` — no `modified` key — although the controller's own formatter
(file_controller.py line 184) reads `item['modified']` and its docstring
promises a modification date: on any non-empty directory the controller
tool raises `KeyError: modified`.  This theorem evaluates the code at the
failing input: a directory `/d` holding one file `a.txt`. -/
theorem C1_listDirectory_missing_modified :
    FileManager.listDirectory noFail (.dir [("d", .dir [("a.txt", .file [97])])]) ["d"]
        = .ok (.ok [("items", .arr [.obj [("name", .s "a.txt"), ("type", .s "file"),
            ("size", .n 1), ("path", .s "/d/a.txt")]]), ("count", .n 1)])
      ∧ List.lookup "modified" [("name", JVal.s "a.txt"), ("type", JVal.s "file"),
            ("size", JVal.n 1), ("path", JVal.s "/d/a.txt")] = none
      ∧ controllerListDirectory noFail (.dir [("d", .dir [("a.txt", .file [97])])]) ["d"]
        = .error "KeyError: modified" :=
  ⟨rfl, rfl, rfl⟩

/-- C2: for every operation, every filesystem, and every behaviour of the
OS and `json` library, the call returns a result value at the adapter
boundary — no exception escapes a `FileManager` method. -/
theorem C2_every_call_returns_result (o : Oracle) (fs : Node) (c : Call) :
    ∃ r fs2, runCall o fs c = .ok (r, fs2) := by
  cases c with
  | readFile p =>
    obtain ⟨r, hr⟩ := readFile_no_raise o fs p
    exact ⟨r, fs, by unfold runCall; dsimp only; rw [hr]; rfl⟩
  | writeFile p c ow =>
    obtain ⟨⟨r, fs2⟩, h⟩ := writeFile_no_raise o fs p c ow
    exact ⟨r, fs2, h⟩
  | appendFile p c =>
    obtain ⟨⟨r, fs2⟩, h⟩ := appendFile_no_raise o fs p c
    exact ⟨r, fs2, h⟩
  | deleteFile p =>
    obtain ⟨⟨r, fs2⟩, h⟩ := deleteFile_no_raise o fs p
    exact ⟨r, fs2, h⟩
  | copyFile src dst =>
    obtain ⟨⟨r, fs2⟩, h⟩ := copyFile_no_raise o fs src dst
    exact ⟨r, fs2, h⟩
  | moveFile src dst =>
    obtain ⟨⟨r, fs2⟩, h⟩ := moveFile_no_raise o fs src dst
    exact ⟨r, fs2, h⟩
  | getFileInfo p =>
    obtain ⟨r, hr⟩ := getFileInfo_no_raise o fs p
    exact ⟨r, fs, by unfold runCall; dsimp only; rw [hr]; rfl⟩
  | writeJsonFile p d ow =>
    obtain ⟨⟨r, fs2⟩, h⟩ := writeJsonFile_no_raise o fs p d ow
    exact ⟨r, fs2, h⟩
  | readJsonFile p =>
    obtain ⟨r, hr⟩ := readJsonFile_no_raise o fs p
    exact ⟨r, fs, by unfold runCall; dsimp only; rw [hr]; rfl⟩
  | listDirectory p =>
    obtain ⟨r, hr⟩ := listDirectory_no_raise o fs p
    exact ⟨r, fs, by unfold runCall; dsimp only; rw [hr]; rfl⟩
  | createFolder p =>
    obtain ⟨⟨r, fs2⟩, h⟩ := createFolder_no_raise o fs p
    exact ⟨r, fs2, h⟩
  | deleteFolder p rec =>
    obtain ⟨⟨r, fs2⟩, h⟩ := deleteFolder_no_raise o fs p rec
    exact ⟨r, fs2, h⟩
  | findFiles pat p =>
    obtain ⟨r, hr⟩ := findFiles_no_raise o fs pat p
    exact ⟨r, fs, by unfold runCall; dsimp only; rw [hr]; rfl⟩
  | searchInFiles t pat p =>
    obtain ⟨r, hr⟩ := searchInFiles_no_raise o fs t pat p
    exact ⟨r, fs, by unfold runCall; dsimp only; rw [hr]; rfl⟩

/-- C3: after a successful `write(p, c, overwrite=False)` on a
previously absent `p`, a second `write(p, c2, overwrite=False)` returns
the `File exists and overwrite=False` error, leaves the tree untouched,
and the stored content is still exactly the UTF-8 encoding of `c`. -/
theorem C3_overwrite_false_preserves (fs fs1 : Node) (p : PathC) (c c2 : String)
    (flds : List (String × JVal)) (habs : fs.lookup p = none)
    (h : FileManager.writeFile noFail fs p c false = .ok (.ok flds, fs1)) :
    FileManager.writeFile noFail fs1 p c2 false
        = .ok (.err ("File exists and overwrite=False: " ++ pathStr p), fs1)
      ∧ fs1.lookup p = some (.file (utf8Encode c.data)) := by
  unfold FileManager.writeFile at h
  rw [habs] at h
  simp only [Option.isSome_none, Bool.false_and, Bool.false_eq_true, if_false] at h
  simp only [withOracle, noFail] at h
  cases hmk : mkdirpNode fs p.dropLast with
  | error m => rw [hmk] at h; simp at h
  | ok fsa =>
    rw [hmk] at h
    dsimp only at h
    cases hsf : setFileNode fsa p (utf8Encode c.data) with
    | error m => rw [hsf] at h; simp at h
    | ok fs2 =>
      rw [hsf] at h
      dsimp only at h
      simp only [Except.ok.injEq, Prod.mk.injEq] at h
      have hfs1 : fs2 = fs1 := h.2
      subst hfs1
      have hlk : fs2.lookup p = some (.file (utf8Encode c.data)) :=
        setFileNode_lookup _ _ _ _ hsf
      refine ⟨?_, hlk⟩
      unfold FileManager.writeFile
      rw [hlk]
      rfl

/-- C3 witness: concrete double write with `overwrite=False`. -/
theorem C3_witness :
    ((Node.dir []).lookup ["f"] = none)
    ∧ (FileManager.writeFile noFail (.dir []) ["f"] "x" false
        = .ok (.ok [("bytesWritten", .n 1), ("path", .s "/f")], .dir [("f", .file [120])]))
    ∧ (FileManager.writeFile noFail (.dir [("f", .file [120])]) ["f"] "y" false
         = .ok (.err ("File exists and overwrite=False: " ++ pathStr ["f"]),
                .dir [("f", .file [120])])
       ∧ (Node.dir [("f", .file [120])]).lookup ["f"] = some (.file (utf8Encode "x".data))) :=
  ⟨rfl, rfl, C3_overwrite_false_preserves (.dir []) (.dir [("f", .file [120])]) ["f"] "x" "y"
    [("bytesWritten", .n 1), ("path", .s "/f")] rfl rfl⟩

/-- C4 counterexample: the claim asserts the write/read round trip for
every UTF-8-representable string, but text-mode reads apply
universal-newline translation: writing `"a\r b"`-style content with a
lone carriage return stores bytes `61 0D 62`, and reading them back
returns `"a\n b"`-style content — not the written string. -/
theorem C4_counterexample :
    FileManager.writeFile noFail (.dir []) ["f"] "a\rb" true
        = .ok (.ok [("bytesWritten", .n 3), ("path", .s "/f")], .dir [("f", .file [97, 13, 98])])
      ∧ FileManager.readFile noFail (.dir [("f", .file [97, 13, 98])]) ["f"]
        = .ok (.ok [("content", .s "a\nb"), ("size", .n 3)])
      ∧ "a\nb" ≠ "a\rb" :=
  ⟨rfl, rfl, by decide⟩

/-- C4 (amended): for every UTF-8-representable string `c` containing no
carriage return, a successful `write(p, c)` followed by `read(p)` returns
exactly `c`, with the reported size equal to the UTF-8 byte length of
`c`.  (For `c` containing `\r`, universal-newline translation on read
maps `\r\n` and `\r` to `\n`, so the round trip differs.) -/
theorem C4_write_read_roundtrip (fs fs1 : Node) (p : PathC) (c : String)
    (flds : List (String × JVal))
    (hcr : ∀ ch ∈ c.data, ch ≠ '\r')
    (h : FileManager.writeFile noFail fs p c true = .ok (.ok flds, fs1)) :
    FileManager.readFile noFail fs1 p
      = .ok (.ok [("content", .s c), ("size", .n (utf8Encode c.data).length)]) := by
  unfold FileManager.writeFile at h
  simp only [Bool.not_true, Bool.and_false, Bool.false_eq_true, if_false] at h
  simp only [withOracle, noFail] at h
  cases hmk : mkdirpNode fs p.dropLast with
  | error m => rw [hmk] at h; simp at h
  | ok fsa =>
    rw [hmk] at h
    dsimp only at h
    cases hsf : setFileNode fsa p (utf8Encode c.data) with
    | error m => rw [hsf] at h; simp at h
    | ok fs2 =>
      rw [hsf] at h
      dsimp only at h
      simp only [Except.ok.injEq, Prod.mk.injEq] at h
      have hfs1 : fs2 = fs1 := h.2
      subst hfs1
      have hlk : fs2.lookup p = some (.file (utf8Encode c.data)) :=
        setFileNode_lookup _ _ _ _ hsf
      have hmkc : String.mk (normNewlines c.data) = c := by
        rw [normNewlines_no_cr c.data hcr]
      unfold FileManager.readFile safeRead
      rw [hlk]
      simp only [noFail]
      rw [safeReadBytes_utf8 c.data, hmkc]

/-- C4 witness: concrete CR-free round trip. -/
theorem C4_roundtrip_witness :
    (∀ ch ∈ "hi".data, ch ≠ '\r')
    ∧ (FileManager.writeFile noFail (.dir []) ["f"] "hi" true
        = .ok (.ok [("bytesWritten", .n 2), ("path", .s "/f")], .dir [("f", .file [104, 105])]))
    ∧ FileManager.readFile noFail (.dir [("f", .file [104, 105])]) ["f"]
        = .ok (.ok [("content", .s "hi"), ("size", .n (utf8Encode "hi".data).length)]) :=
  ⟨by decide, rfl, C4_write_read_roundtrip (.dir []) (.dir [("f", .file [104, 105])]) ["f"] "hi"
    [("bytesWritten", .n 2), ("path", .s "/f")] (by decide) rfl⟩

/-- C5: on a path that does not exist, `readFile`, `deleteFile` and
`getFileInfo` each return the not-found error result naming the missing
path — a returned value, not a raised failure — under every oracle. -/
theorem C5_missing_path_not_found (o : Oracle) (fs : Node) (p : PathC)
    (h : fs.lookup p = none) :
    FileManager.readFile o fs p = .ok (.err ("File does not exist: " ++ pathStr p))
      ∧ FileManager.deleteFile o fs p = .ok (.err ("File does not exist: " ++ pathStr p), fs)
      ∧ FileManager.getFileInfo o fs p = .ok (.err ("File does not exist: " ++ pathStr p)) := by
  refine ⟨?_, ?_, ?_⟩
  · unfold FileManager.readFile
    rw [h]
  · unfold FileManager.deleteFile
    rw [h]
  · unfold FileManager.getFileInfo
    rw [h]

/-- C5 witness: the three operations on a missing path. -/
theorem C5_witness :
    ((Node.dir []).lookup ["nope"] = none)
    ∧ (FileManager.readFile noFail (.dir []) ["nope"]
         = .ok (.err ("File does not exist: " ++ pathStr ["nope"]))
       ∧ FileManager.deleteFile noFail (.dir []) ["nope"]
         = .ok (.err ("File does not exist: " ++ pathStr ["nope"]), .dir [])
       ∧ FileManager.getFileInfo noFail (.dir []) ["nope"]
         = .ok (.err ("File does not exist: " ++ pathStr ["nope"]))) :=
  ⟨rfl, C5_missing_path_not_found noFail (.dir []) ["nope"] rfl⟩

/-- C6: on a non-empty directory (at a non-root path, removal of the
filesystem root being OS-dependent and not modelled),
`deleteFolder(p, recursive=False)` returns the distinct
`Directory not empty` error and leaves the tree untouched, while
`deleteFolder(p, recursive=True)` succeeds and a subsequent `getFileInfo`
returns the not-found error. -/
theorem C6_delete_nonempty_folder (fs : Node) (p : PathC) (cs : List (String × Node))
    (hne : p ≠ []) (hd : fs.lookup p = some (.dir cs)) (hcs : cs ≠ []) :
    FileManager.deleteFolder noFail fs p false
        = .ok (.err ("Directory not empty: " ++ pathStr p), fs)
      ∧ ∃ fs2, FileManager.deleteFolder noFail fs p true
            = .ok (.ok [("deleted", .s (pathStr p)), ("recursive", .b true)], fs2)
          ∧ FileManager.getFileInfo noFail fs2 p
            = .ok (.err ("File does not exist: " ++ pathStr p)) := by
  constructor
  · unfold FileManager.deleteFolder
    rw [hd]
    cases cs with
    | nil => exact absurd rfl hcs
    | cons e t => simp [rmdirPrim, noFail, hd]
  · obtain ⟨fs2, h2⟩ := removeNode_ok fs p _ hd hne
    refine ⟨fs2, ?_, ?_⟩
    · unfold FileManager.deleteFolder
      rw [hd]
      simp [rmtreePrim, noFail, h2]
    · have hnone := removeNode_lookup fs p fs2 h2
      unfold FileManager.getFileInfo
      rw [hnone]

/-- C6 witness: a directory `/d` holding one file. -/
theorem C6_witness :
    ((["d"] : PathC) ≠ []
     ∧ (Node.dir [("d", .dir [("a", .file [])])]).lookup ["d"]
       = some (.dir [("a", .file [])])
     ∧ ([("a", Node.file [])] : List (String × Node)) ≠ [])
    ∧ (FileManager.deleteFolder noFail (.dir [("d", .dir [("a", .file [])])]) ["d"] false
         = .ok (.err ("Directory not empty: " ++ pathStr ["d"]),
                .dir [("d", .dir [("a", .file [])])])
       ∧ ∃ fs2, FileManager.deleteFolder noFail
             (.dir [("d", .dir [("a", .file [])])]) ["d"] true
             = .ok (.ok [("deleted", .s (pathStr ["d"])), ("recursive", .b true)], fs2)
           ∧ FileManager.getFileInfo noFail fs2 ["d"]
             = .ok (.err ("File does not exist: " ++ pathStr ["d"]))) :=
  ⟨⟨by simp, rfl, by simp⟩,
    C6_delete_nonempty_folder (.dir [("d", .dir [("a", .file [])])]) ["d"]
      [("a", .file [])] (by simp) rfl (by simp)⟩

/-- C7: on an existing root directory, `searchInFiles` always reports
success, and its entries are exactly the glob-matched regular files whose
read succeeds, whose bytes decode under the fallback chain, and whose
lowercased decoded content contains the lowercased term; a file whose
read or decode fails is silently omitted (`searchHit` is `none`), never
reported as an error. -/
theorem C7_search_exact_matches (o : Oracle) (fs : Node) (term pat : String) (p : PathC)
    (cs : List (String × Node)) (hd : fs.lookup p = some (.dir cs)) :
    FileManager.searchInFiles o fs term pat p
      = .ok (.ok [("files", .arr ((rglobNode pat.data p (.dir cs)).filterMap (searchHit o term))),
                  ("count",
                    .n ((rglobNode pat.data p (.dir cs)).filterMap (searchHit o term)).length)]) := by
  unfold FileManager.searchInFiles
  rw [hd]
  dsimp only
  rw [searchLoop_eq_filterMap]

/-- C7 witness: one matching file, one unreadable file (skipped
silently), one file excluded by the glob. -/
theorem C7_witness :
    ((Node.dir [("r", .dir [("a.log", .file [78, 101, 101, 100, 108, 101]),
        ("b.log", .file [110]), ("c.txt", .file [110])])]).lookup ["r"]
      = some (.dir [("a.log", .file [78, 101, 101, 100, 108, 101]),
        ("b.log", .file [110]), ("c.txt", .file [110])]))
    ∧ FileManager.searchInFiles
        { noFail with readFail := fun q => if q = ["r", "b.log"] then some "Permission denied" else none }
        (.dir [("r", .dir [("a.log", .file [78, 101, 101, 100, 108, 101]),
          ("b.log", .file [110]), ("c.txt", .file [110])])])
        "needle" "*.log" ["r"]
      = .ok (.ok [("files", .arr ((rglobNode "*.log".data ["r"]
            (.dir [("a.log", .file [78, 101, 101, 100, 108, 101]),
              ("b.log", .file [110]), ("c.txt", .file [110])])).filterMap
            (searchHit
              { noFail with readFail := fun q => if q = ["r", "b.log"] then some "Permission denied" else none }
              "needle"))),
          ("count", .n ((rglobNode "*.log".data ["r"]
            (.dir [("a.log", .file [78, 101, 101, 100, 108, 101]),
              ("b.log", .file [110]), ("c.txt", .file [110])])).filterMap
            (searchHit
              { noFail with readFail := fun q => if q = ["r", "b.log"] then some "Permission denied" else none }
              "needle")).length)]) :=
  ⟨rfl, C7_search_exact_matches _ _ "needle" "*.log" ["r"] _ rfl⟩

/-- C8: decoding attempts exactly the chain UTF-8, Latin-1, Windows-1252
in the source's order, and `_safeRead` returns the text of the first
encoding in the chain that decodes the bytes (with the text-mode newline
translation applied). -/
theorem C8_first_encoding_wins (bs : List Nat) (hb : ∀ b ∈ bs, b < 256) :
    ∃ e cs, encodings.find? (fun e => (decodeWith e bs).isSome) = some e
      ∧ decodeWith e bs = some cs
      ∧ safeReadBytes bs = .ok (String.mk (normNewlines cs)) := by
  cases hu : utf8Decode bs with
  | some cs =>
    refine ⟨.utf8, cs, ?_, ?_, ?_⟩
    · simp [encodings, decodeWith, hu]
    · simp [decodeWith, hu]
    · unfold safeReadBytes encodings
      simp [safeReadBytesGo, readTextBytes, decodeWith, hu]
  | none =>
    obtain ⟨cs, hcs⟩ := latin1_total bs hb
    refine ⟨.latin1, cs, ?_, ?_, ?_⟩
    · simp [encodings, List.find?, decodeWith, hu, hcs]
    · simp [decodeWith, hcs]
    · unfold safeReadBytes encodings
      simp [safeReadBytesGo, readTextBytes, decodeWith, hu, hcs]

/-- C8 witness: byte `FF` is rejected by UTF-8 and decoded by Latin-1,
the second encoding of the chain. -/
theorem C8_witness :
    (∀ b ∈ [255], b < 256)
    ∧ ∃ e cs, encodings.find? (fun e => (decodeWith e [255]).isSome) = some e
      ∧ decodeWith e [255] = some cs
      ∧ safeReadBytes [255] = .ok (String.mk (normNewlines cs)) :=
  ⟨by decide, C8_first_encoding_wins [255] (by decide)⟩

/-- C9: Latin-1 decodes every byte value, so the fallback chain never
fails: the end-of-chain raise in `_safeRead` is unreachable, and reading
an existing regular file (whose disk read the OS allows) always succeeds,
never with a cannot-decode error. -/
theorem C9_decode_never_fails (o : Oracle) (fs : Node) (p : PathC) (bs : List Nat)
    (hf : fs.lookup p = some (.file bs)) (hr : o.readFail p = none)
    (hb : ∀ b ∈ bs, b < 256) :
    ∃ s, safeReadBytes bs = .ok s
      ∧ FileManager.readFile o fs p
        = .ok (.ok [("content", .s s), ("size", .n (utf8Encode s.data).length)]) := by
  obtain ⟨s, hs⟩ := chainText_total bs hb
  have hsr := safeReadBytes_spec bs
  rw [hs] at hsr
  dsimp only at hsr
  refine ⟨s, hsr, ?_⟩
  unfold FileManager.readFile safeRead
  rw [hf, hr]
  dsimp only
  rw [hsr]

/-- C9 witness: one file whose single byte no UTF-8 parse accepts. -/
theorem C9_witness :
    ((Node.dir [("f", .file [255])]).lookup ["f"] = some (.file [255])
     ∧ noFail.readFail ["f"] = none
     ∧ ∀ b ∈ [255], b < 256)
    ∧ ∃ s, safeReadBytes [255] = .ok s
      ∧ FileManager.readFile noFail (.dir [("f", .file [255])]) ["f"]
        = .ok (.ok [("content", .s s), ("size", .n (utf8Encode s.data).length)]) :=
  ⟨⟨rfl, rfl, by decide⟩,
    C9_decode_never_fails noFail (.dir [("f", .file [255])]) ["f"] [255] rfl rfl (by decide)⟩

/-- C10: when the OS rejects a non-recursive `rmdir` on an existing
directory for any reason (for instance permission denied), the handler
reports `Directory not empty` — the directory still exists after the
failure, which in the sequential model is always the case; a recursive
`rmtree` failure, by contrast, surfaces the underlying OS message. -/
theorem C10_rmdir_failure_masked (o : Oracle) (fs : Node) (p : PathC)
    (cs : List (String × Node)) (m : String)
    (hd : fs.lookup p = some (.dir cs)) (hrm : o.rmdirFail p = some m) :
    FileManager.deleteFolder o fs p false
        = .ok (.err ("Directory not empty: " ++ pathStr p), fs)
      ∧ ∀ m2, o.rmtreeFail p = some m2 →
          FileManager.deleteFolder o fs p true = .ok (.err m2, fs) := by
  constructor
  · unfold FileManager.deleteFolder
    rw [hd]
    simp [rmdirPrim, hrm, hd]
  · intro m2 hm2
    unfold FileManager.deleteFolder
    rw [hd]
    simp [rmtreePrim, hm2]

/-- C10 witness: a permission failure injected into `rmdir` and `rmtree`
on an existing (even empty) directory. -/
theorem C10_witness :
    ((Node.dir [("d", .dir [])]).lookup ["d"] = some (.dir [])
     ∧ rmFailOracle.rmdirFail ["d"] = some "Permission denied")
    ∧ (FileManager.deleteFolder rmFailOracle (.dir [("d", .dir [])]) ["d"] false
        = .ok (.err ("Directory not empty: " ++ pathStr ["d"]), .dir [("d", .dir [])])
       ∧ ∀ m2, rmFailOracle.rmtreeFail ["d"] = some m2 →
          FileManager.deleteFolder rmFailOracle (.dir [("d", .dir [])]) ["d"] true
            = .ok (.err m2, .dir [("d", .dir [])])) :=
  ⟨⟨rfl, rfl⟩,
    C10_rmdir_failure_masked rmFailOracle (.dir [("d", .dir [])]) ["d"] [] "Permission denied"
      rfl rfl⟩
